import Mathlib

/-
Shallow embedding of `src/github/api.rs`: the GitHub API client of the
sync-team tool.

Modelling conventions:
* the HTTP transport is a pure function from requests to responses;
* every client operation returns its outcome paired with the list of
  requests it actually dispatched to the network, so "no network call"
  is the statement that the list is empty;
* a Rust `panic!` (process abort) is the `Outcome.fatal` constructor,
  distinct from the recoverable `Outcome.err` (an `anyhow::Error`);
* serde encoding of request bodies is rendered into a small JSON value
  type; serde decoding of response bodies (`resp.json::<T>()`) is an
  explicit decoder argument `Json → Except String T`;
* the `Authorization` / `User-Agent` headers and the `HeaderValue`
  validity check on the token are not modelled: they are attached after
  the dry-run guard and no claim mentions them.
-/

inductive Method where
  | GET
  | POST
  | PUT
  | PATCH
  | DELETE
  deriving DecidableEq

def methodName : Method → String
  | Method.GET => "GET"
  | Method.POST => "POST"
  | Method.PUT => "PUT"
  | Method.PATCH => "PATCH"
  | Method.DELETE => "DELETE"

/-- Boolean infix test on lists: `pat` occurs contiguously in the list. -/
def hasSubstring (pat : List Char) : List Char → Bool
  | [] => pat.isPrefixOf []
  | c :: rest => pat.isPrefixOf (c :: rest) || hasSubstring pat rest

/-- Substring test, modelling Rust `str::contains`. -/
def strContains (s pat : String) : Bool :=
  hasSubstring pat.toList s.toList

/-- Prefix test, modelling Rust `str::starts_with`. -/
def strStarts (s pat : String) : Bool :=
  pat.toList.isPrefixOf s.toList

/-- URL resolution performed at the top of `GitHub::req`: an absolute
URL is kept, a relative path is prefixed with the fixed API origin. -/
def resolveUrl (url : String) : String :=
  if strStarts url "https://" then url else "https://api.github.com/" ++ url

/-- A JSON value, used for request and response bodies. -/
inductive Json where
  | null
  | bool (b : Bool)
  | num (n : Nat)
  | str (s : String)
  | arr (elems : List Json)
  | obj (fields : List (String × Json))

/-- Outcome of a client call: `ok` is `Ok(_)`, `err` is a recoverable
`anyhow::Error`, `fatal` is a process abort (`panic!` or an `unwrap`
failure). -/
inductive Outcome (α : Type) where
  | ok (value : α)
  | err (msg : String)
  | fatal (msg : String)

structure HttpRequest where
  method : Method
  url : String
  body : Option Json

/-- Link-header relation, modelling `hyper_old_types::header::RelationType`. -/
inductive RelationType where
  | next
  | prev
  | first
  | last
  | alternate
  deriving DecidableEq

/-- One value of a parsed `Link` header. -/
structure LinkValue where
  rel : Option (List RelationType)
  link : String

structure HttpResponse where
  status : Nat
  body : Json
  linkHeader : Option (List LinkValue)

/-- The network: a pure function from requests to responses. -/
abbrev Transport := HttpRequest → HttpResponse

structure GitHub where
  token : String
  dry_run : Bool

/-- Models `GitHub::req`: build a request.  In dry-run mode a non-GET request
whose resolved URL does not contain the substring "graphql" panics
(`Outcome.fatal`); otherwise the request is built. -/
def GitHub.req (gh : GitHub) (method : Method) (url : String) : Outcome HttpRequest :=
  if gh.dry_run = true ∧ method ≠ Method.GET ∧ strContains (resolveUrl url) "graphql" = false then
    Outcome.fatal ("Called a non-GET request in dry run mode: " ++ methodName method)
  else
    Outcome.ok { method := method, url := resolveUrl url, body := none }

/-- Models `Response::error_for_status`: a 4xx/5xx status becomes an error,
any other status passes the response through. -/
def errorForStatus (resp : HttpResponse) : Outcome HttpResponse :=
  if 400 ≤ resp.status ∧ resp.status ≤ 599 then
    Outcome.err ("http status error: " ++ toString resp.status)
  else
    Outcome.ok resp

/-- The inlined `self.req(..)?.send()?.error_for_status()?` pattern used
by the DELETE-style operations (no request body). -/
def GitHub.sendRaw (gh : GitHub) (t : Transport) (method : Method) (url : String) :
    Outcome HttpResponse × List HttpRequest :=
  match gh.req method url with
  | Outcome.ok r => (errorForStatus (t r), [r])
  | Outcome.err e => (Outcome.err e, [])
  | Outcome.fatal m => (Outcome.fatal m, [])

/-- Models `GitHub::send`: serialize `body` into the request, dispatch it and
map any 4xx/5xx status to an error. -/
def GitHub.send (gh : GitHub) (t : Transport) (method : Method) (url : String) (body : Json) :
    Outcome HttpResponse × List HttpRequest :=
  match gh.req method url with
  | Outcome.ok r0 =>
      let r : HttpRequest := { r0 with body := some body }
      (errorForStatus (t r), [r])
  | Outcome.err e => (Outcome.err e, [])
  | Outcome.fatal m => (Outcome.fatal m, [])

/-- Models `GitHub::send_option`: dispatch a no-body request; 200 decodes to
`some`, 404 is `none`, a 4xx/5xx status is an error.  Any remaining
status reaches `resp.error_for_status().unwrap_err()`, and since
`error_for_status` returns `Ok` for a non-4xx/5xx status, the
`unwrap_err` call panics. -/
def GitHub.send_option {T : Type} (gh : GitHub) (t : Transport)
    (decode : Json → Except String T) (method : Method) (url : String) :
    Outcome (Option T) × List HttpRequest :=
  match gh.req method url with
  | Outcome.ok r =>
      let resp := t r
      if resp.status = 200 then
        (match decode resp.body with
         | Except.ok v => (Outcome.ok (some v), [r])
         | Except.error e => (Outcome.err e, [r]))
      else if resp.status = 404 then
        (Outcome.ok none, [r])
      else if 400 ≤ resp.status ∧ resp.status ≤ 599 then
        (Outcome.err ("http status error: " ++ toString resp.status), [r])
      else
        (Outcome.fatal "called Result::unwrap_err on an Ok value", [r])
  | Outcome.err e => (Outcome.err e, [])
  | Outcome.fatal m => (Outcome.fatal m, [])

structure GraphError where
  message : String

/-- The GraphQL response envelope (`#[serde(default)]` makes a missing
`errors` field the empty list). -/
structure GraphResult (T : Type) where
  data : Option T
  errors : List GraphError

/-- The request body of a GraphQL call: the query paired with its
variables payload. -/
def graphqlBody (query : String) (vars : Json) : Json :=
  Json.obj [("query", Json.str query), ("variables", vars)]

/-- The request a GraphQL call dispatches. -/
def gqlReq (query : String) (vars : Json) : HttpRequest :=
  { method := Method.POST
    url := "https://api.github.com/graphql"
    body := some (graphqlBody query vars) }

/-- Models `GitHub::graphql`: POST the query to the fixed `graphql` path,
fail on a 4xx/5xx status, decode the `{data, errors}` envelope, then
fail with the first error message if `errors` is non-empty, fail with
"missing graphql data" if `data` is also absent, and return `data`
otherwise. -/
def GitHub.graphql {R : Type} (gh : GitHub) (t : Transport)
    (decode : Json → Except String (GraphResult R)) (query : String) (vars : Json) :
    Outcome R × List HttpRequest :=
  match gh.req Method.POST "graphql" with
  | Outcome.ok r0 =>
      let r : HttpRequest := { r0 with body := some (graphqlBody query vars) }
      let resp := t r
      if 400 ≤ resp.status ∧ resp.status ≤ 599 then
        (Outcome.err ("http status error: " ++ toString resp.status), [r])
      else
        match decode resp.body with
        | Except.error e => (Outcome.err e, [r])
        | Except.ok res =>
            match res.errors.head? with
            | some error => (Outcome.err ("graphql error: " ++ error.message), [r])
            | none =>
                match res.data with
                | some d => (Outcome.ok d, [r])
                | none => (Outcome.err "missing graphql data", [r])
  | Outcome.err e => (Outcome.err e, [])
  | Outcome.fatal m => (Outcome.fatal m, [])

/-- First link of the link header of a response carrying the relation
"next", modelling the `for link in links.values() { .. break }` scan in
`GitHub::rest_paginated`. -/
def nextLink (resp : HttpResponse) : Option String :=
  match resp.linkHeader with
  | none => none
  | some values =>
      (values.find? fun v =>
        (v.rel.map (fun rs => rs.any (fun rel => decide (rel = RelationType.next)))).getD false).map
        (fun v => v.link)

/-- Models `GitHub::rest_paginated`: dispatch the page at `url`, record the
"next" link, feed the response to the accumulation step `f`, and
continue with the link until a page carries none.  The source loop has
no bound; the `fuel` argument only bounds the modelled traversal and
every theorem supplies enough of it. -/
def GitHub.rest_paginated {σ : Type} (gh : GitHub) (t : Transport) (method : Method)
    (f : σ → HttpResponse → Outcome σ) :
    Nat → String → σ → Outcome σ × List HttpRequest
  | 0, _, _ => (Outcome.err "page fuel exhausted", [])
  | fuel + 1, url, acc =>
      match gh.req method url with
      | Outcome.ok r =>
          let resp := t r
          if 400 ≤ resp.status ∧ resp.status ≤ 599 then
            (Outcome.err ("http status error: " ++ toString resp.status), [r])
          else
            let next := nextLink resp
            match f acc resp with
            | Outcome.ok acc' =>
                (match next with
                 | none => (Outcome.ok acc', [r])
                 | some u =>
                     let rest := GitHub.rest_paginated gh t method f fuel u acc'
                     (rest.1, r :: rest.2))
            | Outcome.err e => (Outcome.err e, [r])
            | Outcome.fatal m => (Outcome.fatal m, [r])
      | Outcome.err e => (Outcome.err e, [])
      | Outcome.fatal m => (Outcome.fatal m, [])

/-- Team privacy (`#[serde(rename_all = "snake_case")]`). -/
inductive TeamPrivacy where
  | Closed
  | Secret
  deriving DecidableEq

def TeamPrivacy.serialize : TeamPrivacy → String
  | TeamPrivacy.Closed => "closed"
  | TeamPrivacy.Secret => "secret"

/-- A GitHub team; `id = none` marks a team "created" during a dry run
and not actually present on GitHub. -/
structure Team where
  id : Option Nat
  name : String
  description : String
  privacy : TeamPrivacy
  deriving DecidableEq

/-- Team role.  The serde attribute is
`rename_all(serialize = "snake_case", deserialize = "SCREAMING_SNAKE_CASE")`:
the role is written in lower case and read back only in upper case. -/
inductive TeamRole where
  | Member
  | Maintainer
  deriving DecidableEq

def TeamRole.serialize : TeamRole → String
  | TeamRole.Member => "member"
  | TeamRole.Maintainer => "maintainer"

def TeamRole.deserialize (s : String) : Except String TeamRole :=
  if s = "MEMBER" then Except.ok TeamRole.Member
  else if s = "MAINTAINER" then Except.ok TeamRole.Maintainer
  else Except.error ("unknown variant " ++ s)

/-- Repository permission.  `Write` carries `#[serde(rename = "push")]`
(the API still uses the older term), the other variants use their
snake_case (here: lower-cased) names. -/
inductive RepoPermission where
  | Write
  | Admin
  | Maintain
  | Triage
  deriving DecidableEq

def RepoPermission.serialize : RepoPermission → String
  | RepoPermission.Write => "push"
  | RepoPermission.Admin => "admin"
  | RepoPermission.Maintain => "maintain"
  | RepoPermission.Triage => "triage"

def RepoPermission.deserialize (s : String) : Except String RepoPermission :=
  if s = "push" then Except.ok RepoPermission.Write
  else if s = "admin" then Except.ok RepoPermission.Admin
  else if s = "maintain" then Except.ok RepoPermission.Maintain
  else if s = "triage" then Except.ok RepoPermission.Triage
  else Except.error ("unknown variant " ++ s)

structure Repo where
  name : String
  org : String
  description : Option String
  default_branch : String
  deriving DecidableEq

structure Commit where
  sha : String
  deriving DecidableEq

structure Branch where
  name : String
  commit : Commit
  deriving DecidableEq

structure BranchProtection where
  dismiss_stale_reviews : Bool
  required_approving_review_count : Nat
  required_checks : List String
  allowed_users : List String

/-- Collapse a dispatch result to the unit payload, modelling the
`self.send(..)?; Ok(())` / `..error_for_status()?; Ok(())` pattern. -/
def unitOf : Outcome HttpResponse × List HttpRequest → Outcome Unit × List HttpRequest
  | (Outcome.ok _, log) => (Outcome.ok (), log)
  | (Outcome.err e, log) => (Outcome.err e, log)
  | (Outcome.fatal m, log) => (Outcome.fatal m, log)

/-- Models `GitHub::team`: get the team by name and org. -/
def GitHub.team (gh : GitHub) (t : Transport) (decode : Json → Except String Team)
    (org team : String) : Outcome (Option Team) × List HttpRequest :=
  gh.send_option t decode Method.GET ("orgs/" ++ org ++ "/teams/" ++ team)

/-- Models `GitHub::create_team`: in dry-run mode synthesize a local team with
`id = none`; otherwise POST and decode the created team. -/
def GitHub.create_team (gh : GitHub) (t : Transport) (decode : Json → Except String Team)
    (org name description : String) (privacy : TeamPrivacy) :
    Outcome Team × List HttpRequest :=
  if gh.dry_run then
    (Outcome.ok { id := none, name := name, description := description, privacy := privacy }, [])
  else
    match gh.send t Method.POST ("orgs/" ++ org ++ "/teams")
        (Json.obj [("name", Json.str name), ("description", Json.str description),
                   ("privacy", Json.str (TeamPrivacy.serialize privacy))]) with
    | (Outcome.ok resp, log) =>
        (match decode resp.body with
         | Except.ok team => (Outcome.ok team, log)
         | Except.error e => (Outcome.err e, log))
    | (Outcome.err e, log) => (Outcome.err e, log)
    | (Outcome.fatal m, log) => (Outcome.fatal m, log)

/-- The PATCH body of `GitHub::edit_team`
(`skip_serializing_if = "Option::is_none"` on every field). -/
def editTeamBody (new_name new_description : Option String)
    (new_privacy : Option TeamPrivacy) : Json :=
  Json.obj
    ((match new_name with
      | some n => [("name", Json.str n)]
      | none => []) ++
     (match new_description with
      | some d => [("description", Json.str d)]
      | none => []) ++
     (match new_privacy with
      | some p => [("privacy", Json.str (TeamPrivacy.serialize p))]
      | none => []))

/-- Models `GitHub::edit_team`. -/
def GitHub.edit_team (gh : GitHub) (t : Transport) (org name : String)
    (new_name new_description : Option String) (new_privacy : Option TeamPrivacy) :
    Outcome Unit × List HttpRequest :=
  if gh.dry_run then (Outcome.ok (), [])
  else
    unitOf (gh.send t Method.PATCH ("orgs/" ++ org ++ "/teams/" ++ name)
      (editTeamBody new_name new_description new_privacy))

/-- Models `GitHub::delete_team`. -/
def GitHub.delete_team (gh : GitHub) (t : Transport) (org team : String) :
    Outcome Unit × List HttpRequest :=
  if gh.dry_run then (Outcome.ok (), [])
  else unitOf (gh.sendRaw t Method.DELETE ("orgs/" ++ org ++ "/teams/" ++ team))

/-- Models `GitHub::set_team_membership`. -/
def GitHub.set_team_membership (gh : GitHub) (t : Transport) (org team user : String)
    (role : TeamRole) : Outcome Unit × List HttpRequest :=
  if gh.dry_run then (Outcome.ok (), [])
  else
    unitOf (gh.send t Method.PUT ("orgs/" ++ org ++ "/teams/" ++ team ++ "/memberships/" ++ user)
      (Json.obj [("role", Json.str (TeamRole.serialize role))]))

/-- Models `GitHub::remove_team_membership`. -/
def GitHub.remove_team_membership (gh : GitHub) (t : Transport) (org team user : String) :
    Outcome Unit × List HttpRequest :=
  if gh.dry_run then (Outcome.ok (), [])
  else
    unitOf (gh.sendRaw t Method.DELETE
      ("orgs/" ++ org ++ "/teams/" ++ team ++ "/memberships/" ++ user))

/-- Models `GitHub::repo`: get a repo by org and name. -/
def GitHub.repo (gh : GitHub) (t : Transport) (decode : Json → Except String Repo)
    (org repo : String) : Outcome (Option Repo) × List HttpRequest :=
  gh.send_option t decode Method.GET ("repos/" ++ org ++ "/" ++ repo)

/-- Models `GitHub::create_repo`: in dry-run mode synthesize a local repo;
otherwise POST and decode the created repo. -/
def GitHub.create_repo (gh : GitHub) (t : Transport) (decode : Json → Except String Repo)
    (org name description : String) : Outcome Repo × List HttpRequest :=
  if gh.dry_run then
    (Outcome.ok { name := name, org := org, description := some description,
                  default_branch := "main" }, [])
  else
    match gh.send t Method.POST ("orgs/" ++ org ++ "/repos")
        (Json.obj [("name", Json.str name), ("description", Json.str description)]) with
    | (Outcome.ok resp, log) =>
        (match decode resp.body with
         | Except.ok repo => (Outcome.ok repo, log)
         | Except.error e => (Outcome.err e, log))
    | (Outcome.err e, log) => (Outcome.err e, log)
    | (Outcome.fatal m, log) => (Outcome.fatal m, log)

/-- Models `GitHub::edit_repo`. -/
def GitHub.edit_repo (gh : GitHub) (t : Transport) (repo : Repo) (description : String) :
    Outcome Unit × List HttpRequest :=
  if gh.dry_run then (Outcome.ok (), [])
  else
    unitOf (gh.send t Method.PATCH ("repos/" ++ repo.org ++ "/" ++ repo.name)
      (Json.obj [("description", Json.str description)]))

/-- Models `GitHub::update_team_repo_permissions`. -/
def GitHub.update_team_repo_permissions (gh : GitHub) (t : Transport)
    (org repo team : String) (permission : RepoPermission) :
    Outcome Unit × List HttpRequest :=
  if gh.dry_run then (Outcome.ok (), [])
  else
    unitOf (gh.send t Method.PUT
      ("orgs/" ++ org ++ "/teams/" ++ team ++ "/repos/" ++ org ++ "/" ++ repo)
      (Json.obj [("permission", Json.str (RepoPermission.serialize permission))]))

/-- Models `GitHub::update_user_repo_permissions`. -/
def GitHub.update_user_repo_permissions (gh : GitHub) (t : Transport)
    (org repo user : String) (permission : RepoPermission) :
    Outcome Unit × List HttpRequest :=
  if gh.dry_run then (Outcome.ok (), [])
  else
    unitOf (gh.send t Method.PUT ("repos/" ++ org ++ "/" ++ repo ++ "/collaborators/" ++ user)
      (Json.obj [("permission", Json.str (RepoPermission.serialize permission))]))

/-- Models `GitHub::remove_team_from_repo`. -/
def GitHub.remove_team_from_repo (gh : GitHub) (t : Transport) (org repo team : String) :
    Outcome Unit × List HttpRequest :=
  if gh.dry_run then (Outcome.ok (), [])
  else
    unitOf (gh.sendRaw t Method.DELETE
      ("orgs/" ++ org ++ "/teams/" ++ team ++ "/repos/" ++ org ++ "/" ++ repo))

/-- Models `GitHub::remove_collaborator_from_repo`. -/
def GitHub.remove_collaborator_from_repo (gh : GitHub) (t : Transport)
    (org repo collaborator : String) : Outcome Unit × List HttpRequest :=
  if gh.dry_run then (Outcome.ok (), [])
  else
    unitOf (gh.sendRaw t Method.DELETE
      ("repos/" ++ org ++ "/" ++ repo ++ "/collaborators/" ++ collaborator))

/-- Models `GitHub::branch`: head commit sha of a branch, absent on 404. -/
def GitHub.branch (gh : GitHub) (t : Transport) (decode : Json → Except String Branch)
    (repo : Repo) (name : String) : Outcome (Option String) × List HttpRequest :=
  match gh.send_option t decode Method.GET
      ("repos/" ++ repo.org ++ "/" ++ repo.name ++ "/branches/" ++ name) with
  | (Outcome.ok b, log) => (Outcome.ok (b.map (fun x => x.commit.sha)), log)
  | (Outcome.err e, log) => (Outcome.err e, log)
  | (Outcome.fatal m, log) => (Outcome.fatal m, log)

/-- Models `GitHub::create_branch`. -/
def GitHub.create_branch (gh : GitHub) (t : Transport) (repo : Repo)
    (name commit : String) : Outcome Unit × List HttpRequest :=
  if gh.dry_run then (Outcome.ok (), [])
  else
    unitOf (gh.send t Method.POST ("repos/" ++ repo.org ++ "/" ++ repo.name ++ "/git/refs")
      (Json.obj [("ref", Json.str ("refs/heads/" ++ name)), ("sha", Json.str commit)]))

/-- The PUT body of `GitHub::update_branch_protection` (`strict` and
`enforce_admins` are hard-coded, dismissal restrictions are the empty
object, the restrictions map holds the allowed users and no teams). -/
def branchProtectionBody (bp : BranchProtection) : Json :=
  Json.obj
    [("required_status_checks", Json.obj
        [("strict", Json.bool false),
         ("checks", Json.arr (bp.required_checks.map
            (fun c => Json.obj [("context", Json.str c)])))]),
     ("enforce_admins", Json.bool true),
     ("required_pull_request_reviews", Json.obj
        [("dismissal_restrictions", Json.obj []),
         ("dismiss_stale_reviews", Json.bool bp.dismiss_stale_reviews),
         ("required_approving_review_count", Json.num bp.required_approving_review_count)]),
     ("restrictions", Json.obj
        [("users", Json.arr (bp.allowed_users.map Json.str)),
         ("teams", Json.arr [])])]

/-- The request dispatched by a live `update_branch_protection` call. -/
def bpReq (repo : Repo) (branch_name : String) (bp : BranchProtection) : HttpRequest :=
  { method := Method.PUT
    url := resolveUrl ("repos/" ++ repo.org ++ "/" ++ repo.name ++ "/branches/" ++
      branch_name ++ "/protection")
    body := some (branchProtectionBody bp) }

/-- Models `GitHub::update_branch_protection`: `Ok(true)` on 200, `Ok(false)`
on 404, an error on a 4xx/5xx status.  On any other status the
`resp.error_for_status()?` call in the source passes the response through and
the match arm falls out with `Ok(false)`.  In dry-run mode: `Ok(true)`
with no network call. -/
def GitHub.update_branch_protection (gh : GitHub) (t : Transport) (repo : Repo)
    (branch_name : String) (branch_protection : BranchProtection) :
    Outcome Bool × List HttpRequest :=
  if gh.dry_run then (Outcome.ok true, [])
  else
    match gh.req Method.PUT ("repos/" ++ repo.org ++ "/" ++ repo.name ++ "/branches/" ++
        branch_name ++ "/protection") with
    | Outcome.ok r0 =>
        let r : HttpRequest := { r0 with body := some (branchProtectionBody branch_protection) }
        let resp := t r
        if resp.status = 200 then (Outcome.ok true, [r])
        else if resp.status = 404 then (Outcome.ok false, [r])
        else if 400 ≤ resp.status ∧ resp.status ≤ 599 then
          (Outcome.err ("http status error: " ++ toString resp.status), [r])
        else (Outcome.ok false, [r])
    | Outcome.err e => (Outcome.err e, [])
    | Outcome.fatal m => (Outcome.fatal m, [])

/-- Models `GitHub::delete_branch_protection`. -/
def GitHub.delete_branch_protection (gh : GitHub) (t : Transport) (repo : Repo)
    (branch : String) : Outcome Unit × List HttpRequest :=
  if gh.dry_run then (Outcome.ok (), [])
  else
    unitOf (gh.sendRaw t Method.DELETE
      ("repos/" ++ repo.org ++ "/" ++ repo.name ++ "/branches/" ++ branch ++ "/protection"))

/-- The base64 alphabet used by the standard encoding of the `base64` crate. -/
def base64Table : List Char :=
  "ABCDEFGHIJKLMNOPQRSTUVWXYZabcdefghijklmnopqrstuvwxyz0123456789+/".toList

def base64Digit (n : Nat) : Char :=
  base64Table.getD n '='

/-- Standard base64 with padding over a byte list. -/
def base64Go : List Nat → List Char
  | [] => []
  | [b0] =>
      let w := b0 * 65536
      [base64Digit (w / 262144 % 64), base64Digit (w / 4096 % 64), '=', '=']
  | [b0, b1] =>
      let w := b0 * 65536 + b1 * 256
      [base64Digit (w / 262144 % 64), base64Digit (w / 4096 % 64),
       base64Digit (w / 64 % 64), '=']
  | b0 :: b1 :: b2 :: rest =>
      let w := b0 * 65536 + b1 * 256 + b2
      base64Digit (w / 262144 % 64) :: base64Digit (w / 4096 % 64) ::
        base64Digit (w / 64 % 64) :: base64Digit (w % 64) :: base64Go rest

/-- Models `base64::encode` of the UTF-8 bytes of a string. -/
def base64Encode (s : String) : String :=
  String.mk (base64Go (s.toUTF8.toList.map (fun b => b.toNat)))

/-- Models `user_node_id`: the GraphQL global id of a user. -/
def user_node_id (id : Nat) : String :=
  base64Encode ("04:User" ++ toString id)

/-- Models `team_node_id`: the GraphQL global id of a team. -/
def team_node_id (id : Nat) : String :=
  base64Encode ("04:Team" ++ toString id)

/-- One decoded node of the `usernames` query
(struct `Usernames { database_id, login }` in the source). -/
structure Usernames where
  database_id : Nat
  login : String

/-- The `nodes(ids:)` payload shape (`GraphNodes<T>` in the source):
deleted or inaccessible users resolve to `none`. -/
structure GraphNodes (T : Type) where
  nodes : List (Option T)

/-- The query string of `GitHub::usernames`. -/
def usernamesQuery : String :=
  "\n            query($ids: [ID!]!) \x7b\n                nodes(ids: $ids) \x7b\n                    ... on User \x7b\n                        databaseId\n                        login\n                    \x7d\n                \x7d\n            \x7d\n        "

/-- The serialized variables of one `usernames` chunk
(struct `Params { ids: Vec<String> }`). -/
def usernamesParams (chunk : List Nat) : Json :=
  Json.obj [("ids", Json.arr (chunk.map (fun id => Json.str (user_node_id id))))]

/-- Rust `slice::chunks(100)`: split a list into consecutive chunks of
at most 100 elements; the empty list yields no chunk. -/
def chunks100 : List Nat → List (List Nat)
  | [] => []
  | x :: xs => ((x :: xs).take 100) :: chunks100 ((x :: xs).drop 100)
  termination_by l => l.length
  decreasing_by simp; omega

/-- Models `HashMap::insert` on the result mapping. -/
def mapInsert (m : Nat → Option String) (k : Nat) (v : String) : Nat → Option String :=
  fun q => if q = k then some v else m q

/-- The per-chunk accumulation of `GitHub::usernames`:
`for node in res.nodes.into_iter().flatten() { result.insert(..) }`. -/
def insertNodes (m : Nat → Option String) (nodes : List (Option Usernames)) :
    Nat → Option String :=
  (nodes.filterMap id).foldl (fun acc n => mapInsert acc n.database_id n.login) m

/-- The chunk loop of `GitHub::usernames`. -/
def GitHub.usernamesGo (gh : GitHub) (t : Transport)
    (decode : Json → Except String (GraphResult (GraphNodes Usernames))) :
    List (List Nat) → (Nat → Option String) →
    Outcome (Nat → Option String) × List HttpRequest
  | [], result => (Outcome.ok result, [])
  | chunk :: rest, result =>
      match gh.graphql t decode usernamesQuery (usernamesParams chunk) with
      | (Outcome.ok res, log) =>
          let next := GitHub.usernamesGo gh t decode rest (insertNodes result res.nodes)
          (next.1, log ++ next.2)
      | (Outcome.err e, log) => (Outcome.err e, log)
      | (Outcome.fatal m, log) => (Outcome.fatal m, log)

/-- Models `GitHub::usernames`: resolve user names by user ids, 100 ids per
GraphQL request. -/
def GitHub.usernames (gh : GitHub) (t : Transport)
    (decode : Json → Except String (GraphResult (GraphNodes Usernames)))
    (ids : List Nat) : Outcome (Nat → Option String) × List HttpRequest :=
  GitHub.usernamesGo gh t decode (chunks100 ids) (fun _ => none)

/-- The no-body request built for a relative REST path. -/
def restReq (method : Method) (url : String) : HttpRequest :=
  { method := method, url := resolveUrl url, body := none }

/-- Predicate: the transport `t` serves the page chain: starting from `url`, each page answers
with status 200; every page but the last carries a "next" link that
leads to the following page, the last page carries none. -/
def servesChain (t : Transport) (method : Method) : String → List HttpResponse → Prop
  | _, [] => True
  | url, r :: rest =>
      t (restReq method url) = r ∧
      r.status = 200 ∧
      (match rest with
       | [] => nextLink r = none
       | _ :: _ => ∃ u, nextLink r = some u ∧ servesChain t method u rest)

/-- The requests a pagination traversal dispatches along a chain: the
starting path, then the "next" link of each page. -/
def chainRequests (method : Method) : String → List HttpResponse → List HttpRequest
  | _, [] => []
  | url, r :: rest =>
      restReq method url ::
      (match nextLink r with
       | some u => chainRequests method u rest
       | none => [])

/-- Transport double for the `send_option` witness: every request is
answered with status 200 and a string payload. -/
def c3T200 : Transport :=
  fun _ => { status := 200, body := Json.str "payload", linkHeader := none }

/-- Transport double for the `send_option` counterexample: every
request is answered with status 201. -/
def c3T201 : Transport :=
  fun _ => { status := 201, body := Json.null, linkHeader := none }

/-- Monadic fold over the pages of a chain, mirroring the sequence of
`f(resp)?` invocations the pagination loop makes. -/
def foldPages {σ : Type} (f : σ → HttpResponse → Outcome σ) :
    σ → List HttpResponse → Outcome σ
  | acc, [] => Outcome.ok acc
  | acc, r :: rest =>
      match f acc r with
      | Outcome.ok a => foldPages f a rest
      | Outcome.err e => Outcome.err e
      | Outcome.fatal m => Outcome.fatal m

/-- Second page of the pagination witness: no "next" link. -/
def c4P2 : HttpResponse := { status := 200, body := Json.str "page2", linkHeader := none }

/-- First page of the pagination witness: carries a "next" link. -/
def c4P1 : HttpResponse :=
  { status := 200, body := Json.str "page1",
    linkHeader := some [{ rel := some [RelationType.next], link := "https://n2" }] }

/-- Transport double serving the two-page chain of the pagination
witness. -/
def c4T : Transport := fun r => if r.url = "https://n2" then c4P2 else c4P1

/-- Transport double for the GraphQL witness. -/
def c5T : Transport := fun _ => { status := 200, body := Json.null, linkHeader := none }

/-- Envelope of the GraphQL witness: one reported error, no data. -/
def c5Env : GraphResult Nat := { data := none, errors := [{ message := "boom" }] }

/-- Decoder double of the GraphQL witness. -/
def c5Decode : Json → Except String (GraphResult Nat) := fun _ => Except.ok c5Env

/-- Transport double answering 200 for the branch-protection witness. -/
def c6T200 : Transport := fun _ => { status := 200, body := Json.null, linkHeader := none }

/-- Repository of the branch-protection witness and counterexample. -/
def c6Repo : Repo :=
  { name := "rust", org := "rust-lang", description := none, default_branch := "master" }

/-- Branch protection payload of the witness and counterexample. -/
def c6BP : BranchProtection :=
  { dismiss_stale_reviews := false, required_approving_review_count := 1,
    required_checks := [], allowed_users := [] }

/-- Transport double answering 201 for the branch-protection
counterexample. -/
def c6T201 : Transport := fun _ => { status := 201, body := Json.null, linkHeader := none }

/-- Transport double for the usernames witness. -/
def c7T : Transport := fun _ => { status := 200, body := Json.null, linkHeader := none }

/-- Envelope served for every chunk of the usernames witness: one
resolved user and one null node. -/
def c7Nodes : GraphNodes Usernames :=
  { nodes := [some { database_id := 1, login := "alice" }, none] }

/-- Decoder double for the usernames witness. -/
def c7Decode : Json → Except String (GraphResult (GraphNodes Usernames)) :=
  fun _ => Except.ok { data := some c7Nodes, errors := [] }

theorem req_get (gh : GitHub) (url : String) :
    gh.req Method.GET url = Outcome.ok (restReq Method.GET url) := by
  unfold GitHub.req restReq
  rw [if_neg]
  intro h
  exact h.2.1 rfl

theorem req_live (gh : GitHub) (h : gh.dry_run = false) (method : Method) (url : String) :
    gh.req method url = Outcome.ok (restReq method url) := by
  unfold GitHub.req restReq
  rw [if_neg]
  intro hc
  rw [h] at hc
  exact Bool.false_ne_true hc.1

theorem req_graphql (gh : GitHub) :
    gh.req Method.POST "graphql" =
      Outcome.ok { method := Method.POST, url := "https://api.github.com/graphql",
                   body := none } := by
  unfold GitHub.req
  rw [if_neg]
  · rfl
  · intro h
    exact absurd h.2.2 (by decide)

theorem graphql_eval {R : Type} (gh : GitHub) (t : Transport)
    (decode : Json → Except String (GraphResult R)) (query : String) (vars : Json)
    (env : GraphResult R)
    (hstatus : (t (gqlReq query vars)).status = 200)
    (hdecode : decode (t (gqlReq query vars)).body = Except.ok env) :
    gh.graphql t decode query vars =
      ((match env.errors.head? with
        | some error => Outcome.err ("graphql error: " ++ error.message)
        | none =>
            match env.data with
            | some d => Outcome.ok d
            | none => Outcome.err "missing graphql data"), [gqlReq query vars]) := by
  simp only [gqlReq, graphqlBody] at hstatus hdecode ⊢
  unfold GitHub.graphql
  rw [req_graphql gh]
  simp only [graphqlBody, hstatus, hdecode]
  norm_num
  rcases env with ⟨data, errors⟩
  cases errors <;> cases data <;> rfl

/-- C1 (amended): while dry-run mode is active, a request whose method
is not GET and whose resolved URL does not contain the substring
"graphql" is never built for dispatch: `GitHub::req` aborts the process
fatally (panics) instead of returning a recoverable error.  The
guard in the source tests containment of the substring "graphql" in the
URL, not equality with the GraphQL path, so "not a GraphQL path" in
the original claim has to be amended to "does not contain the
substring graphql"; see `req_dry_run_counterexample`. -/
theorem req_dry_run_panics (token : String) (method : Method) (url : String)
    (hm : method ≠ Method.GET)
    (hg : strContains (resolveUrl url) "graphql" = false) :
    GitHub.req { token := token, dry_run := true } method url =
      Outcome.fatal ("Called a non-GET request in dry run mode: " ++ methodName method) := by
  unfold GitHub.req
  rw [if_pos ⟨rfl, hm, hg⟩]

/-- Witness for `req_dry_run_panics` at a concrete DELETE request. -/
theorem req_dry_run_panics_witness :
    Method.DELETE ≠ Method.GET ∧
    strContains (resolveUrl "orgs/rust-lang/teams/tools") "graphql" = false ∧
    GitHub.req { token := "tok", dry_run := true } Method.DELETE "orgs/rust-lang/teams/tools" =
      Outcome.fatal ("Called a non-GET request in dry run mode: " ++ methodName Method.DELETE) :=
  ⟨by decide, by decide,
   req_dry_run_panics "tok" Method.DELETE "orgs/rust-lang/teams/tools" (by decide) (by decide)⟩

/-- C1 counterexample: with dry-run active, a DELETE aimed at the REST
path "repos/rust-lang/graphql" — a repository named "graphql", which is
not the GraphQL path — is not aborted: `GitHub::req` builds the request
for dispatch, because the guard only tests whether the resolved URL
contains the substring "graphql". -/
theorem req_dry_run_counterexample :
    "repos/rust-lang/graphql" ≠ "graphql" ∧
    resolveUrl "repos/rust-lang/graphql" ≠ resolveUrl "graphql" ∧
    GitHub.req { token := "tok", dry_run := true } Method.DELETE "repos/rust-lang/graphql" =
      Outcome.ok { method := Method.DELETE,
                   url := "https://api.github.com/repos/rust-lang/graphql", body := none } :=
  ⟨by decide, by decide, by rfl⟩

/-- C10: the dry-run guard in `GitHub::req` exempts any URL containing
the substring "graphql" anywhere, not only the GraphQL endpoint: every
such request is built (never panics), and concretely a PUT to the REST
collaborator path of a repository named "graphql" is dispatched to the
network (its dispatch log is that one request) during dry-run when sent
through `GitHub::send`. -/
theorem req_graphql_substring_exempt :
    (∀ (token url : String) (method : Method),
        strContains (resolveUrl url) "graphql" = true →
        GitHub.req { token := token, dry_run := true } method url =
          Outcome.ok { method := method, url := resolveUrl url, body := none }) ∧
    (∀ (token : String) (t : Transport) (body : Json),
        (GitHub.send { token := token, dry_run := true } t Method.PUT
            "repos/rust-lang/graphql/collaborators/alice" body).2 =
          [{ method := Method.PUT,
             url := "https://api.github.com/repos/rust-lang/graphql/collaborators/alice",
             body := some body }]) := by
  constructor
  · intro token url method hg
    unfold GitHub.req
    rw [if_neg]
    intro h
    rw [hg] at h
    simp at h
  · intro token t body
    rfl

/-- Witness for `req_graphql_substring_exempt` at a concrete PUT. -/
theorem req_graphql_substring_exempt_witness :
    GitHub.req { token := "tok", dry_run := true } Method.PUT "repos/rust-lang/graphql" =
      Outcome.ok { method := Method.PUT,
                   url := resolveUrl "repos/rust-lang/graphql", body := none } :=
  req_graphql_substring_exempt.1 "tok" "repos/rust-lang/graphql" Method.PUT (by decide)

/-- C2: with the dry-run flag enabled, every mutating operation issues
no network call (its dispatch log is `[]`) and returns a successful
local result; in particular `create_team` returns a `Team` whose `id`
is `none` and whose name, description and privacy equal the supplied
arguments, and `create_repo` synthesizes the corresponding local repo. -/
theorem dry_run_mutations_skip_network (token : String) (t : Transport)
    (dTeam : Json → Except String Team) (dRepo : Json → Except String Repo)
    (org name description user team collaborator branch_name commit : String)
    (privacy : TeamPrivacy) (role : TeamRole) (permission : RepoPermission)
    (new_name new_description : Option String) (new_privacy : Option TeamPrivacy)
    (repo : Repo) (bp : BranchProtection) :
    GitHub.create_team { token := token, dry_run := true } t dTeam org name description privacy =
      (Outcome.ok { id := none, name := name, description := description,
                    privacy := privacy }, []) ∧
    GitHub.edit_team { token := token, dry_run := true } t org name new_name new_description
        new_privacy = (Outcome.ok (), []) ∧
    GitHub.delete_team { token := token, dry_run := true } t org team = (Outcome.ok (), []) ∧
    GitHub.set_team_membership { token := token, dry_run := true } t org team user role =
      (Outcome.ok (), []) ∧
    GitHub.remove_team_membership { token := token, dry_run := true } t org team user =
      (Outcome.ok (), []) ∧
    GitHub.create_repo { token := token, dry_run := true } t dRepo org name description =
      (Outcome.ok { name := name, org := org, description := some description,
                    default_branch := "main" }, []) ∧
    GitHub.edit_repo { token := token, dry_run := true } t repo description =
      (Outcome.ok (), []) ∧
    GitHub.update_team_repo_permissions { token := token, dry_run := true } t org name team
        permission = (Outcome.ok (), []) ∧
    GitHub.update_user_repo_permissions { token := token, dry_run := true } t org name user
        permission = (Outcome.ok (), []) ∧
    GitHub.remove_team_from_repo { token := token, dry_run := true } t org name team =
      (Outcome.ok (), []) ∧
    GitHub.remove_collaborator_from_repo { token := token, dry_run := true } t org name
        collaborator = (Outcome.ok (), []) ∧
    GitHub.create_branch { token := token, dry_run := true } t repo branch_name commit =
      (Outcome.ok (), []) ∧
    GitHub.update_branch_protection { token := token, dry_run := true } t repo branch_name bp =
      (Outcome.ok true, []) ∧
    GitHub.delete_branch_protection { token := token, dry_run := true } t repo branch_name =
      (Outcome.ok (), []) :=
  ⟨rfl, rfl, rfl, rfl, rfl, rfl, rfl, rfl, rfl, rfl, rfl, rfl, rfl, rfl⟩

/-- C3 (amended): for the fetch-style operations built on
`GitHub::send_option` (team lookup, repo lookup, branch head lookup): a
200 response yields `some` of the decoded value, a 404 response yields
`none` (absent, not an error), and a 4xx/5xx status other than 404
yields an error.  A status that is none of those (e.g. a non-200
success status) does not yield an error: the source expression
`resp.error_for_status().unwrap_err()` panics on it, so the original
"any other status yields an error" has to be amended; see
`send_option_counterexample`. -/
theorem send_option_statuses {T : Type} (gh : GitHub) (t : Transport)
    (decode : Json → Except String T) (url : String) :
    ((∀ v : T, (t (restReq Method.GET url)).status = 200 →
        decode (t (restReq Method.GET url)).body = Except.ok v →
        gh.send_option t decode Method.GET url =
          (Outcome.ok (some v), [restReq Method.GET url])) ∧
     ((t (restReq Method.GET url)).status = 404 →
        gh.send_option t decode Method.GET url =
          (Outcome.ok none, [restReq Method.GET url])) ∧
     ((t (restReq Method.GET url)).status ≠ 404 →
        400 ≤ (t (restReq Method.GET url)).status →
        (t (restReq Method.GET url)).status ≤ 599 →
        gh.send_option t decode Method.GET url =
          (Outcome.err ("http status error: " ++ toString (t (restReq Method.GET url)).status),
           [restReq Method.GET url])) ∧
     ((t (restReq Method.GET url)).status ≠ 200 →
        (t (restReq Method.GET url)).status ≠ 404 →
        ¬(400 ≤ (t (restReq Method.GET url)).status ∧
            (t (restReq Method.GET url)).status ≤ 599) →
        gh.send_option t decode Method.GET url =
          (Outcome.fatal "called Result::unwrap_err on an Ok value",
           [restReq Method.GET url]))) ∧
    (∀ (dT : Json → Except String Team) (org tn : String),
        GitHub.team gh t dT org tn =
          gh.send_option t dT Method.GET ("orgs/" ++ org ++ "/teams/" ++ tn)) ∧
    (∀ (dR : Json → Except String Repo) (org rn : String),
        GitHub.repo gh t dR org rn =
          gh.send_option t dR Method.GET ("repos/" ++ org ++ "/" ++ rn)) ∧
    (∀ (dB : Json → Except String Branch) (repo : Repo) (bn : String) (b : Branch),
        ((t (restReq Method.GET
             ("repos/" ++ repo.org ++ "/" ++ repo.name ++ "/branches/" ++ bn))).status = 200 →
         dB (t (restReq Method.GET
             ("repos/" ++ repo.org ++ "/" ++ repo.name ++ "/branches/" ++ bn))).body =
           Except.ok b →
         GitHub.branch gh t dB repo bn =
           (Outcome.ok (some b.commit.sha),
            [restReq Method.GET
              ("repos/" ++ repo.org ++ "/" ++ repo.name ++ "/branches/" ++ bn)])) ∧
        ((t (restReq Method.GET
             ("repos/" ++ repo.org ++ "/" ++ repo.name ++ "/branches/" ++ bn))).status = 404 →
         GitHub.branch gh t dB repo bn =
           (Outcome.ok none,
            [restReq Method.GET
              ("repos/" ++ repo.org ++ "/" ++ repo.name ++ "/branches/" ++ bn)]))) := by
  refine ⟨⟨?_, ?_, ?_, ?_⟩, fun dT org tn => rfl, fun dR org rn => rfl, ?_⟩
  · intro v h200 hdec
    unfold GitHub.send_option
    rw [req_get gh url]
    simp only [h200, hdec]
    norm_num
  · intro h404
    unfold GitHub.send_option
    rw [req_get gh url]
    simp only [h404]
    norm_num
  · intro hn404 h400 h599
    unfold GitHub.send_option
    rw [req_get gh url]
    simp only []
    rw [if_neg (by omega), if_neg hn404, if_pos ⟨h400, h599⟩]
  · intro hn200 hn404 hnerr
    unfold GitHub.send_option
    rw [req_get gh url]
    simp only []
    rw [if_neg hn200, if_neg hn404, if_neg hnerr]
  · intro dB repo bn b
    constructor
    · intro h200 hdec
      unfold GitHub.branch GitHub.send_option
      rw [req_get]
      simp only [h200, hdec]
      norm_num
    · intro h404
      unfold GitHub.branch GitHub.send_option
      rw [req_get]
      simp only [h404]
      norm_num

/-- Witness for `send_option_statuses`: a concrete 200 fetch yields
`some` of the decoded value through one dispatched request. -/
theorem send_option_statuses_witness :
    GitHub.send_option { token := "tok", dry_run := false } c3T200
        (fun b => Except.ok b) Method.GET "orgs/rust-lang/teams/tools" =
      (Outcome.ok (some (Json.str "payload")),
       [restReq Method.GET "orgs/rust-lang/teams/tools"]) :=
  (send_option_statuses { token := "tok", dry_run := false } c3T200
      (fun b => Except.ok b) "orgs/rust-lang/teams/tools").1.1 (Json.str "payload") rfl rfl

/-- C3 counterexample: a 201 response is neither 200 nor 404, so the
claim demands an error; the source instead reaches
`resp.error_for_status().unwrap_err()`, and `unwrap_err` on the `Ok`
that `error_for_status` returns for a success status panics — a fatal
process abort, not a returned error. -/
theorem send_option_counterexample :
    (c3T201 (restReq Method.GET "orgs/rust-lang/teams/tools")).status = 201 ∧
    GitHub.send_option { token := "tok", dry_run := false } c3T201
        (fun b => Except.ok b) Method.GET "orgs/rust-lang/teams/tools" =
      (Outcome.fatal "called Result::unwrap_err on an Ok value",
       [restReq Method.GET "orgs/rust-lang/teams/tools"]) :=
  ⟨rfl, rfl⟩

theorem rest_paginated_fold {σ : Type} (gh : GitHub) (t : Transport)
    (f : σ → HttpResponse → Outcome σ) :
    ∀ (chain : List HttpResponse) (start : String) (acc : σ),
      chain ≠ [] →
      servesChain t Method.GET start chain →
      (∀ (a : σ) (r : HttpResponse), r ∈ chain → ∃ a2, f a r = Outcome.ok a2) →
      gh.rest_paginated t Method.GET f chain.length start acc =
        (foldPages f acc chain, chainRequests Method.GET start chain) := by
  intro chain
  induction chain with
  | nil => intro start acc hne _ _; exact absurd rfl hne
  | cons r rest ih =>
      intro start acc _ hserve hf
      unfold servesChain at hserve
      obtain ⟨ht, hstatus, hrest⟩ := hserve
      obtain ⟨a2, ha2⟩ := hf acc r (List.mem_cons_self r rest)
      simp only [List.length_cons]
      unfold GitHub.rest_paginated
      rw [req_get gh start]
      simp only [ht, hstatus]
      rw [if_neg (by omega)]
      cases rest with
      | nil =>
          simp only at hrest
          simp only [hrest, ha2, chainRequests, foldPages]
      | cons r2 rest2 =>
          simp only at hrest
          obtain ⟨u, hnl, hsc⟩ := hrest
          simp only [hnl, ha2, List.length_cons]
          simp only [List.length_cons] at ih
          rw [ih u a2 (by simp) hsc
            (fun a rm hm => hf a rm (List.mem_cons_of_mem r hm))]
          simp [chainRequests, hnl, foldPages, ha2]

theorem foldPages_collect (acc chain : List HttpResponse) :
    foldPages (fun a r => Outcome.ok (a ++ [r])) acc chain = Outcome.ok (acc ++ chain) := by
  induction chain generalizing acc with
  | nil => simp [foldPages]
  | cons r rest ih => simp [foldPages, ih]

/-- C4: the REST pagination engine, run on a chain of N successful
pages where pages 1..N-1 carry a "next" link relation and page N does
not, invokes the caller-supplied accumulation step exactly N times in
page order — the first conjunct shows that any step `f` that succeeds
on these pages is applied as the monadic fold `foldPages` over the
chain, and the second conjunct instantiates the step with a collector
whose final state records every invocation in page order.  Each
subsequent request targets the "next" link of the previous page as its full
URL (`chainRequests`; `resolveUrl` leaves an absolute link unchanged),
and traversal stops after the page with no "next" link. -/
theorem rest_paginated_pages (gh : GitHub) (t : Transport)
    (chain : List HttpResponse) (start : String)
    (hne : chain ≠ [])
    (hserve : servesChain t Method.GET start chain) :
    (∀ (σ : Type) (f : σ → HttpResponse → Outcome σ) (acc : σ),
        (∀ (a : σ) (r : HttpResponse), r ∈ chain → ∃ a2, f a r = Outcome.ok a2) →
        gh.rest_paginated t Method.GET f chain.length start acc =
          (foldPages f acc chain, chainRequests Method.GET start chain)) ∧
    (∀ acc : List HttpResponse,
        gh.rest_paginated t Method.GET (fun a r => Outcome.ok (a ++ [r]))
            chain.length start acc =
          (Outcome.ok (acc ++ chain), chainRequests Method.GET start chain)) := by
  constructor
  · intro σ f acc hf
    exact rest_paginated_fold gh t f chain start acc hne hserve hf
  · intro acc
    rw [rest_paginated_fold gh t (fun a r => Outcome.ok (a ++ [r])) chain start acc hne
      hserve (fun a r _ => ⟨a ++ [r], rfl⟩)]
    rw [foldPages_collect]

/-- Witness for `rest_paginated_pages`: a concrete two-page traversal
collects both pages in order and dispatches the start URL and then the
"next" link. -/
theorem rest_paginated_pages_witness :
    GitHub.rest_paginated { token := "tok", dry_run := false } c4T Method.GET
        (fun a r => Outcome.ok (a ++ [r])) 2 "orgs/rust-lang/teams" [] =
      (Outcome.ok [c4P1, c4P2],
       chainRequests Method.GET "orgs/rust-lang/teams" [c4P1, c4P2]) :=
  (rest_paginated_pages { token := "tok", dry_run := false } c4T [c4P1, c4P2]
    "orgs/rust-lang/teams" (by simp) ⟨rfl, rfl, "https://n2", rfl, rfl, rfl, rfl⟩).2 []

/-- C5: for every GraphQL execution whose HTTP layer succeeds (status
200, envelope decoded), if the errors list of the envelope is non-empty the
call fails with the message of the first error and `data` is never used; if
the errors list is empty and `data` is absent the call fails as a
protocol violation ("missing graphql data"); otherwise the call
returns `data`. -/
theorem graphql_envelope_policy {R : Type} (gh : GitHub) (t : Transport)
    (decode : Json → Except String (GraphResult R)) (query : String) (vars : Json)
    (env : GraphResult R)
    (hstatus : (t (gqlReq query vars)).status = 200)
    (hdecode : decode (t (gqlReq query vars)).body = Except.ok env) :
    (∀ (e : GraphError) (rest : List GraphError), env.errors = e :: rest →
        gh.graphql t decode query vars =
          (Outcome.err ("graphql error: " ++ e.message), [gqlReq query vars])) ∧
    (env.errors = [] → env.data = none →
        gh.graphql t decode query vars =
          (Outcome.err "missing graphql data", [gqlReq query vars])) ∧
    (∀ d : R, env.errors = [] → env.data = some d →
        gh.graphql t decode query vars = (Outcome.ok d, [gqlReq query vars])) := by
  refine ⟨?_, ?_, ?_⟩
  · intro e rest herr
    rw [graphql_eval gh t decode query vars env hstatus hdecode, herr]
    rfl
  · intro herr hdata
    rw [graphql_eval gh t decode query vars env hstatus hdecode, herr, hdata]
    rfl
  · intro d herr hdata
    rw [graphql_eval gh t decode query vars env hstatus hdecode, herr, hdata]
    rfl

/-- Witness for `graphql_envelope_policy`: a reported error fails the
call with the message of the first error. -/
theorem graphql_envelope_policy_witness :
    GitHub.graphql { token := "tok", dry_run := false } c5T c5Decode "query" Json.null =
      (Outcome.err "graphql error: boom", [gqlReq "query" Json.null]) :=
  (graphql_envelope_policy { token := "tok", dry_run := false } c5T c5Decode "query"
      Json.null c5Env rfl rfl).1 { message := "boom" } [] rfl

/-- Evaluation of a live (`dry_run = false`) branch-protection update
as a function of the response status. -/
theorem ubp_live (token : String) (t : Transport) (repo : Repo) (branch_name : String)
    (bp : BranchProtection) :
    GitHub.update_branch_protection { token := token, dry_run := false } t repo
        branch_name bp =
      (if (t (bpReq repo branch_name bp)).status = 200 then
         (Outcome.ok true, [bpReq repo branch_name bp])
       else if (t (bpReq repo branch_name bp)).status = 404 then
         (Outcome.ok false, [bpReq repo branch_name bp])
       else if 400 ≤ (t (bpReq repo branch_name bp)).status ∧
           (t (bpReq repo branch_name bp)).status ≤ 599 then
         (Outcome.err ("http status error: " ++ toString (t (bpReq repo branch_name bp)).status),
          [bpReq repo branch_name bp])
       else (Outcome.ok false, [bpReq repo branch_name bp])) := rfl

/-- C6 (amended): the branch-protection update, when live, returns
`true` on a 200 response, `false` on a 404 response (branch absent,
not an error), and an error on any other 4xx/5xx status; on any
remaining status (e.g. a non-200 success status) the source call
`resp.error_for_status()?` passes the response through and the call
returns `false` — not an error, which amends the original "an error on
any other status"; see `update_branch_protection_counterexample`.
When dry-run is enabled it returns `true` without any network call. -/
theorem update_branch_protection_statuses (token : String) (t : Transport)
    (repo : Repo) (branch_name : String) (bp : BranchProtection) :
    (GitHub.update_branch_protection { token := token, dry_run := true } t repo
        branch_name bp = (Outcome.ok true, [])) ∧
    ((t (bpReq repo branch_name bp)).status = 200 →
        GitHub.update_branch_protection { token := token, dry_run := false } t repo
          branch_name bp = (Outcome.ok true, [bpReq repo branch_name bp])) ∧
    ((t (bpReq repo branch_name bp)).status = 404 →
        GitHub.update_branch_protection { token := token, dry_run := false } t repo
          branch_name bp = (Outcome.ok false, [bpReq repo branch_name bp])) ∧
    ((t (bpReq repo branch_name bp)).status ≠ 404 →
        400 ≤ (t (bpReq repo branch_name bp)).status →
        (t (bpReq repo branch_name bp)).status ≤ 599 →
        GitHub.update_branch_protection { token := token, dry_run := false } t repo
          branch_name bp =
          (Outcome.err ("http status error: " ++
              toString (t (bpReq repo branch_name bp)).status),
           [bpReq repo branch_name bp])) ∧
    ((t (bpReq repo branch_name bp)).status ≠ 200 →
        (t (bpReq repo branch_name bp)).status ≠ 404 →
        ¬(400 ≤ (t (bpReq repo branch_name bp)).status ∧
            (t (bpReq repo branch_name bp)).status ≤ 599) →
        GitHub.update_branch_protection { token := token, dry_run := false } t repo
          branch_name bp = (Outcome.ok false, [bpReq repo branch_name bp])) := by
  refine ⟨rfl, ?_, ?_, ?_, ?_⟩
  · intro h200
    rw [ubp_live, if_pos h200]
  · intro h404
    rw [ubp_live, if_neg (by omega), if_pos h404]
  · intro hn404 h400 h599
    rw [ubp_live, if_neg (by omega), if_neg hn404, if_pos ⟨h400, h599⟩]
  · intro hn200 hn404 hnerr
    rw [ubp_live, if_neg hn200, if_neg hn404, if_neg hnerr]

/-- Witness for `update_branch_protection_statuses`: a concrete live
200 update returns `true` through one dispatched request. -/
theorem update_branch_protection_statuses_witness :
    GitHub.update_branch_protection { token := "tok", dry_run := false } c6T200 c6Repo
        "master" c6BP = (Outcome.ok true, [bpReq c6Repo "master" c6BP]) :=
  (update_branch_protection_statuses "tok" c6T200 c6Repo "master" c6BP).2.1 rfl

/-- C6 counterexample: on a 201 response — neither 200 nor 404 — the
claim demands an error, but the live code returns `Ok(false)` (the
"branch absent" signal): the `_` match arm runs
`resp.error_for_status()?`, which passes a success status through, and
then yields `Ok(false)`. -/
theorem update_branch_protection_counterexample :
    (c6T201 (bpReq c6Repo "master" c6BP)).status = 201 ∧
    GitHub.update_branch_protection { token := "tok", dry_run := false } c6T201 c6Repo
        "master" c6BP = (Outcome.ok false, [bpReq c6Repo "master" c6BP]) :=
  ⟨rfl, rfl⟩

theorem chunks100_length (l : List Nat) :
    (chunks100 l).length = (l.length + 99) / 100 := by
  induction l using chunks100.induct with
  | case1 => simp [chunks100]
  | case2 x xs ih =>
      rw [chunks100]
      simp only [List.length_cons, List.length_drop] at ih ⊢
      omega

theorem usernamesGo_eval (gh : GitHub) (t : Transport)
    (decode : Json → Except String (GraphResult (GraphNodes Usernames)))
    (env : List Nat → GraphNodes Usernames) :
    ∀ (cs : List (List Nat)) (acc : Nat → Option String),
      (∀ c ∈ cs,
          (t (gqlReq usernamesQuery (usernamesParams c))).status = 200 ∧
          decode (t (gqlReq usernamesQuery (usernamesParams c))).body =
            Except.ok { data := some (env c), errors := [] }) →
      GitHub.usernamesGo gh t decode cs acc =
        (Outcome.ok (cs.foldl (fun m c => insertNodes m (env c).nodes) acc),
         cs.map (fun c => gqlReq usernamesQuery (usernamesParams c))) := by
  intro cs
  induction cs with
  | nil => intro acc _; rfl
  | cons c rest ih =>
      intro acc h
      have hc := h c (List.mem_cons_self c rest)
      have hok : gh.graphql t decode usernamesQuery (usernamesParams c) =
          (Outcome.ok (env c), [gqlReq usernamesQuery (usernamesParams c)]) := by
        rw [graphql_eval gh t decode usernamesQuery (usernamesParams c)
          { data := some (env c), errors := [] } hc.1 hc.2]
        rfl
      unfold GitHub.usernamesGo
      rw [hok]
      dsimp only
      rw [ih (insertNodes acc (env c).nodes)
        (fun c2 hc2 => h c2 (List.mem_cons_of_mem c hc2))]
      rfl

/-- C7: batch username resolution over a list of user ids partitions
the ids into chunks of at most 100, issues exactly `ceil(count/100)`
GraphQL queries (one per chunk, in order), skips ids whose node
resolves to null without failing (`insertNodes` only folds over the
`some` nodes), and merges the decoded pairs of every chunk into one
mapping. -/
theorem usernames_chunking (gh : GitHub) (t : Transport)
    (decode : Json → Except String (GraphResult (GraphNodes Usernames)))
    (ids : List Nat) (env : List Nat → GraphNodes Usernames)
    (hserve : ∀ c ∈ chunks100 ids,
        (t (gqlReq usernamesQuery (usernamesParams c))).status = 200 ∧
        decode (t (gqlReq usernamesQuery (usernamesParams c))).body =
          Except.ok { data := some (env c), errors := [] }) :
    GitHub.usernames gh t decode ids =
      (Outcome.ok ((chunks100 ids).foldl (fun m c => insertNodes m (env c).nodes)
          (fun _ => none)),
       (chunks100 ids).map (fun c => gqlReq usernamesQuery (usernamesParams c))) ∧
    ((chunks100 ids).map (fun c => gqlReq usernamesQuery (usernamesParams c))).length =
      (ids.length + 99) / 100 := by
  constructor
  · exact usernamesGo_eval gh t decode env (chunks100 ids) (fun _ => none) hserve
  · rw [List.length_map]
    exact chunks100_length ids

/-- Witness for `usernames_chunking`: two ids form one chunk, one
query is issued, the null node is skipped and the resolved pair lands
in the mapping. -/
theorem usernames_chunking_witness :
    GitHub.usernames { token := "tok", dry_run := false } c7T c7Decode [1, 2] =
      (Outcome.ok ((chunks100 [1, 2]).foldl
          (fun m c => insertNodes m ((fun _ => c7Nodes) c).nodes) (fun _ => none)),
       (chunks100 [1, 2]).map (fun c => gqlReq usernamesQuery (usernamesParams c))) ∧
    ((chunks100 [1, 2]).map (fun c => gqlReq usernamesQuery (usernamesParams c))).length =
      ([1, 2].length + 99) / 100 :=
  usernames_chunking { token := "tok", dry_run := false } c7T c7Decode [1, 2]
    (fun _ => c7Nodes) (fun _ _ => ⟨rfl, rfl⟩)

/-- C8 (amended): the client writes each team role on the wire in
lower-case, and accepts on read only the upper-case screaming-snake
encoding (serde `rename_all(serialize = "snake_case",
deserialize = "SCREAMING_SNAKE_CASE")`): the lower-case form is
rejected on read; see `team_role_counterexample`. -/
theorem team_role_wire_encoding :
    TeamRole.serialize TeamRole.Member = "member" ∧
    TeamRole.serialize TeamRole.Maintainer = "maintainer" ∧
    TeamRole.deserialize "MEMBER" = Except.ok TeamRole.Member ∧
    TeamRole.deserialize "MAINTAINER" = Except.ok TeamRole.Maintainer ∧
    TeamRole.deserialize "member" = Except.error "unknown variant member" ∧
    TeamRole.deserialize "maintainer" = Except.error "unknown variant maintainer" :=
  ⟨rfl, rfl, rfl, rfl, rfl, rfl⟩

/-- C8 counterexample: the claim says the client accepts on read both
encodings of the same value, but deserializing the lower-case form that
the client itself writes ("member") fails: the serde deserialize
renaming accepts only "MEMBER" and "MAINTAINER". -/
theorem team_role_counterexample :
    TeamRole.serialize TeamRole.Member = "member" ∧
    TeamRole.deserialize "member" = Except.error "unknown variant member" :=
  ⟨rfl, rfl⟩

/-- C9: the `RepoPermission` value `Write` serializes to the wire token
"push" and "push" deserializes back to `Write` (a round-trip); every
other variant serializes to its lower-cased name, and every variant
round-trips through its own wire token. -/
theorem repo_permission_roundtrip :
    RepoPermission.serialize RepoPermission.Write = "push" ∧
    RepoPermission.deserialize "push" = Except.ok RepoPermission.Write ∧
    RepoPermission.serialize RepoPermission.Admin = "admin" ∧
    RepoPermission.serialize RepoPermission.Maintain = "maintain" ∧
    RepoPermission.serialize RepoPermission.Triage = "triage" ∧
    (∀ p : RepoPermission,
        RepoPermission.deserialize (RepoPermission.serialize p) = Except.ok p) := by
  refine ⟨rfl, rfl, rfl, rfl, rfl, ?_⟩
  intro p
  cases p <;> rfl
